import Mathlib

/-!
Verification development for the protocol-database and event/timer
notification engine exercised by the `RustFfiTestDxe` conformance tests
of the patina-qemu platform repository.

The repository ships the conformance tests (`RustFfiTestDxe.c`) for this
engine; the engine itself (the firmware core's handle/protocol registry,
open/close arbitration, locator and event scheduler) is not part of the
repository sources. The definitions below are therefore modelled from the
repository specification (sections 3, 4.1-4.4 of `spec.md`), with the test
scenarios from `RustFfiTestDxe.c` used as the concrete instances that the
theorems' witnesses replay.

Modelling conventions:
* handles, capability-type-ids (protocol GUIDs), interface pointers,
  consumer/agent handles and event identities are modelled as `Nat`;
* the single-threaded cooperative model runs at the lowest (application)
  priority level, so every pending notify-dispatch drains synchronously,
  exactly as the conformance tests observe;
* callback invocations are recorded in a dispatch `trace` (the list of
  event ids whose callbacks ran, in invocation order).
-/

set_option maxRecDepth 8000

namespace Fw

/-- Modelled from the spec: the error taxonomy of section 7 (the subset the
core operations return). -/
inductive Err where
  | notFound
  | accessDenied
  | alreadyExists
  | invalidParameter
deriving DecidableEq, Repr

/-- Result of a fallible operation. -/
inductive Res (α : Type) where
  | ok (val : α)
  | err (e : Err)
deriving DecidableEq, Repr

/-- Modelled from the spec: access modes of a `UsageRecord`
(section 3), in increasing exclusivity. -/
inductive AccessMode where
  | sharedTest
  | sharedUse
  | exclusive
  | byDriver
deriving DecidableEq, Repr

/-- Modelled from the spec: `CapabilityInstance` =
`(handle, capability-type-id, interface-pointer)` (section 3). -/
structure CapabilityInstance where
  handle : Nat
  typeId : Nat
  iface : Nat
deriving DecidableEq, Repr

/-- Modelled from the spec: `UsageRecord` =
`(capability-instance, consumer-handle, controller-handle | none,
access-mode, reference-count)` (section 3). -/
structure UsageRecord where
  handle : Nat
  typeId : Nat
  consumer : Nat
  controller : Option Nat
  mode : AccessMode
  refCount : Nat
deriving DecidableEq, Repr

/-- Modelled from the spec: the arming state of a timer event
(section 4.4, `SetTimer`). -/
inductive TimerState where
  | off
  | oneshot (deadline : Nat)
  | periodic (deadline : Nat) (interval : Nat)
deriving DecidableEq, Repr

/-- Modelled from the spec: `Event` (section 3). `notifyOnSignal` is the
`EVT_NOTIFY_SIGNAL`-style trigger flag, `timerCapable` the `EVT_TIMER`
creation flag; `closed` records the `Closed` state of section 4.4's
state machine. -/
structure Event where
  id : Nat
  tpl : Nat
  notifyOnSignal : Bool
  timerCapable : Bool
  group : Option Nat
  closed : Bool
  signaled : Bool
  timer : TimerState
deriving DecidableEq, Repr

/-- Modelled from the spec: `RegistrationToken` (section 3), an opaque
cursor into the per-type install log, bound to a capability-notify
event. -/
structure NotifyToken where
  id : Nat
  typeId : Nat
  eventId : Nat
  cursor : Nat
deriving DecidableEq, Repr

/-- Modelled from the spec: the shared state of the Registry, Arbitration
tables and Scheduler (sections 3-4 and design note on global tables).
`installLog` records `(capability-type-id, handle)` pairs in ascending
install order; `trace` records dispatched event ids in callback order. -/
structure World where
  instances : List CapabilityInstance
  usages : List UsageRecord
  nextHandle : Nat
  installLog : List (Nat × Nat)
  events : List Event
  tokens : List NotifyToken
  nextToken : Nat
  now : Nat
  trace : List Nat
deriving DecidableEq, Repr

/-- Key predicate selecting the capability instance of type `t` on
handle `h`. -/
def instKey (h t : Nat) (c : CapabilityInstance) : Bool :=
  decide (c.handle = h ∧ c.typeId = t)

/-- Registry lookup of the instance of type `t` on handle `h`
(`HandleProtocol`-style query). -/
def findInstance (w : World) (h t : Nat) : Option CapabilityInstance :=
  w.instances.find? (instKey h t)

/-- Modelled from the spec: `FindByType` (section 4.2) — first installed
matching interface. -/
def findByType (w : World) (t : Nat) : Option Nat :=
  (w.instances.find? fun c => decide (c.typeId = t)).map (·.iface)

/-- An event is ready for dispatch when it is signaled, has a
signal-notify callback and is not closed. -/
def readyForDispatch (e : Event) : Bool :=
  e.signaled && e.notifyOnSignal && !e.closed

/-- Insert an event into a list sorted by descending priority level,
after all events of greater or equal level (stable insertion). -/
def insertDesc (e : Event) : List Event → List Event
  | [] => [e]
  | f :: fs => if f.tpl ≤ e.tpl then e :: f :: fs
               else f :: insertDesc e fs

/-- Stable sort by descending priority level: among equal levels,
registration order is preserved. -/
def sortDesc : List Event → List Event
  | [] => []
  | e :: es => insertDesc e (sortDesc es)

/-- Modelled from the spec: the dispatch step of section 4.4 — all
currently ready events run their callbacks in descending priority-level
order, ties in registration order (dispatch ordering invariant), before
control returns to the caller. -/
def dispatchAll (w : World) : World :=
  { w with
    events := w.events.map fun e =>
      if readyForDispatch e then { e with signaled := false } else e,
    trace := w.trace ++ (sortDesc (w.events.filter readyForDispatch)).map (·.id) }

/-- Modelled from the spec: publishing an install notification
(sections 4.2 and 4.4): the `(type, handle)` pair is appended to the
install log and every capability-notify event bound via a token to that
capability-type-id is signaled and dispatched. -/
def publishInstall (w : World) (t h : Nat) : World :=
  let w1 := { w with installLog := w.installLog ++ [(t, h)] }
  let boundIds := w1.tokens.filterMap fun tk =>
    if decide (tk.typeId = t) then some tk.eventId else none
  dispatchAll { w1 with
    events := w1.events.map fun e =>
      if !e.closed && boundIds.contains e.id then { e with signaled := true } else e }

/-- Modelled from the spec: `Install` (section 4.1) — fails with
AlreadyExists if the capability-type-id is already present on the given
handle; creates a fresh handle when none is given; publishes an install
notification on success. -/
def installOne (w : World) (h : Option Nat) (t i : Nat) : World × Res Nat :=
  match h with
  | some h0 =>
    if (findInstance w h0 t).isSome then (w, .err .alreadyExists)
    else (publishInstall { w with instances := w.instances ++ [⟨h0, t, i⟩] } t h0,
          .ok h0)
  | none =>
    let h0 := w.nextHandle
    (publishInstall
      { w with instances := w.instances ++ [⟨h0, t, i⟩], nextHandle := h0 + 1 } t h0,
     .ok h0)

/-- Raw removal of the instance `(h, t, i)`, used for rollback of a
partially completed batch. -/
def removeInstanceRaw (w : World) (h t i : Nat) : World :=
  { w with instances := w.instances.filter fun c =>
      !decide (c.handle = h ∧ c.typeId = t ∧ c.iface = i) }

/-- Modelled from the spec: the sequential part of `InstallMultiple`
(section 4.1) — sub-installs are applied in order; when a later
sub-install fails, each completed sub-install is retroactively rolled
back on the way out. -/
def installBatchGo (w : World) (h : Nat) : List (Nat × Nat) → World × Res Unit
  | [] => (w, .ok ())
  | (t, i) :: rest =>
    match installOne w (some h) t i with
    | (_, .err e) => (w, .err e)
    | (w1, .ok _) =>
      match installBatchGo w1 h rest with
      | (w2, .ok _) => (w2, .ok ())
      | (w2, .err e) => (removeInstanceRaw w2 h t i, .err e)

/-- Modelled from the spec: `InstallMultiple` (section 4.1) — installs a
batch atomically on the given handle, or on a freshly created one; on
partial failure all completed installs are rolled back and the fresh
handle (if any) is released. -/
def installMultiple (w : World) (h : Option Nat) (pairs : List (Nat × Nat)) :
    World × Res Nat :=
  match h with
  | some h0 =>
    match installBatchGo w h0 pairs with
    | (w', .ok _) => (w', .ok h0)
    | (w', .err e) => (w', .err e)
  | none =>
    let h0 := w.nextHandle
    match installBatchGo { w with nextHandle := h0 + 1 } h0 pairs with
    | (w', .ok _) => (w', .ok h0)
    | (w', .err e) => ({ w' with nextHandle := w.nextHandle }, .err e)

/-- Modelled from the spec: `Uninstall` (section 4.1) — NotFound if no
matching instance with the given interface; AccessDenied while
by-driver/exclusive usage records still reference the instance; on
success removes the instance and force-closes all its usage records. -/
def uninstall (w : World) (h t i : Nat) : World × Res Unit :=
  match findInstance w h t with
  | none => (w, .err .notFound)
  | some ci =>
    if ci.iface ≠ i then (w, .err .notFound)
    else if w.usages.any fun u =>
        decide ((u.handle = h ∧ u.typeId = t) ∧
                (u.mode = .byDriver ∨ u.mode = .exclusive)) then
      (w, .err .accessDenied)
    else
      ({ w with
         instances := w.instances.filter fun c => !instKey h t c,
         usages := w.usages.filter fun u =>
           !decide (u.handle = h ∧ u.typeId = t) }, .ok ())

/-- Modelled from the spec: `Reinstall` (section 4.1) — replaces the
interface pointer of an existing instance in place, keeping the handle
and all usage records; NotFound when the old interface does not match
the current one. -/
def reinstall (w : World) (h t oldI newI : Nat) : World × Res Unit :=
  match findInstance w h t with
  | none => (w, .err .notFound)
  | some ci =>
    if ci.iface = oldI then
      ({ w with instances := w.instances.map fun c =>
          if instKey h t c then { c with iface := newI } else c }, .ok ())
    else (w, .err .notFound)

/-- Key predicate selecting usage records of the instance `(h, t)`. -/
def usageOn (h t : Nat) (u : UsageRecord) : Bool :=
  decide (u.handle = h ∧ u.typeId = t)

/-- Outcome of `Open`: plain success, the advisory AlreadyStarted success
variant (section 7), or a failure. -/
inductive OpenResult where
  | opened (iface : Nat)
  | alreadyStarted (iface : Nat)
  | failed (e : Err)
deriving DecidableEq, Repr

/-- Modelled from the spec: `Open` (section 4.3). Evaluation order:
(a) NotFound without a matching instance; (b) `by-driver`: an identical
(consumer, controller) record yields the interface with the advisory
AlreadyStarted outcome, a by-driver/exclusive record of a different
consumer yields AccessDenied, otherwise a usage record is created;
(c) `exclusive` follows the same denial rule; (d) the shared modes
always succeed and reference-count. -/
def openProtocol (w : World) (h t c : Nat) (k : Option Nat) (m : AccessMode) :
    World × OpenResult :=
  match findInstance w h t with
  | none => (w, .failed .notFound)
  | some ci =>
    match m with
    | .byDriver =>
      if w.usages.any fun u => usageOn h t u &&
          decide (u.mode = .byDriver ∧ u.consumer = c ∧ u.controller = k) then
        (w, .alreadyStarted ci.iface)
      else if w.usages.any fun u => usageOn h t u &&
          decide ((u.mode = .byDriver ∨ u.mode = .exclusive) ∧ u.consumer ≠ c) then
        (w, .failed .accessDenied)
      else
        ({ w with usages := w.usages ++ [⟨h, t, c, k, .byDriver, 1⟩] },
         .opened ci.iface)
    | .exclusive =>
      if w.usages.any fun u => usageOn h t u &&
          decide (u.mode = .exclusive ∧ u.consumer = c ∧ u.controller = k) then
        (w, .alreadyStarted ci.iface)
      else if w.usages.any fun u => usageOn h t u &&
          decide ((u.mode = .byDriver ∨ u.mode = .exclusive) ∧ u.consumer ≠ c) then
        (w, .failed .accessDenied)
      else
        ({ w with usages := w.usages ++ [⟨h, t, c, k, .exclusive, 1⟩] },
         .opened ci.iface)
    | m =>
      if w.usages.any fun u => usageOn h t u &&
          decide (u.consumer = c ∧ u.controller = k ∧ u.mode = m) then
        ({ w with usages := w.usages.map fun u =>
            if usageOn h t u &&
                decide (u.consumer = c ∧ u.controller = k ∧ u.mode = m) then
              { u with refCount := u.refCount + 1 }
            else u }, .opened ci.iface)
      else
        ({ w with usages := w.usages ++ [⟨h, t, c, k, m, 1⟩] }, .opened ci.iface)

/-- Key predicate matching a `Close` request against a usage record:
the exact (consumer, controller) pair on the instance `(h, t)`. -/
def closeKey (h t c : Nat) (k : Option Nat) (u : UsageRecord) : Bool :=
  decide (u.handle = h ∧ u.typeId = t ∧ u.consumer = c ∧ u.controller = k)

/-- Modelled from the spec: `Close` (section 4.3) — NotFound without a
matching record for the exact (consumer, controller) pair; shared
records with a reference count above one are decremented, otherwise the
record is removed. -/
def closeProtocol (w : World) (h t c : Nat) (k : Option Nat) : World × Res Unit :=
  match w.usages.find? (closeKey h t c k) with
  | none => (w, .err .notFound)
  | some u =>
    if (u.mode = .sharedUse ∨ u.mode = .sharedTest) ∧ 1 < u.refCount then
      ({ w with usages := w.usages.map fun u2 =>
          if closeKey h t c k u2 then { u2 with refCount := u2.refCount - 1 }
          else u2 }, .ok ())
    else
      ({ w with usages := w.usages.filter fun u2 => !closeKey h t c k u2 }, .ok ())

/-- Modelled from the spec: `Signal` (section 4.4) — marks the event and
every not-yet-dispatched event sharing its group as signaled, then
synchronously dispatches everything ready before returning; an error is
reported for an unknown or `Closed` event and no callback runs. -/
def signalEvent (w : World) (eid : Nat) : World × Res Unit :=
  match w.events.find? (fun e => decide (e.id = eid)) with
  | none => (w, .err .invalidParameter)
  | some e =>
    if e.closed then (w, .err .invalidParameter)
    else
      (dispatchAll { w with events := w.events.map fun ev =>
          if !ev.closed &&
              (decide (ev.id = eid) || (e.group.isSome && decide (ev.group = e.group)))
          then { ev with signaled := true } else ev }, .ok ())

/-- The three arming requests of `SetTimer` (section 4.4). -/
inductive TimerKind where
  | relative
  | periodic
  | cancel
deriving DecidableEq, Repr

/-- Modelled from the spec: `SetTimer` (section 4.4) — `relative` arms a
one-shot deadline `now + interval`, `periodic` arms a re-arming deadline,
`cancel` disarms without closing; only valid on a live timer-capable
event. -/
def setTimer (w : World) (eid : Nat) (k : TimerKind) (interval : Nat) :
    World × Res Unit :=
  match w.events.find? (fun e => decide (e.id = eid)) with
  | none => (w, .err .invalidParameter)
  | some e =>
    if e.closed || !e.timerCapable then (w, .err .invalidParameter)
    else
      let ts : TimerState :=
        match k with
        | .relative => .oneshot (w.now + interval)
        | .periodic => .periodic (w.now + interval) interval
        | .cancel => .off
      ({ w with events := w.events.map fun ev =>
          if decide (ev.id = eid) then { ev with timer := ts } else ev }, .ok ())

/-- A live armed timer whose deadline has been reached at time `now`. -/
def timerDue (now : Nat) (e : Event) : Bool :=
  !e.closed &&
    match e.timer with
    | .off => false
    | .oneshot d => decide (d ≤ now)
    | .periodic d _ => decide (d ≤ now)

/-- Modelled from the spec: `Tick` (section 4.4) — advances `now` by
`elapsed`; every armed timer event whose deadline has been reached fires
once (overdue periodic firings coalesce into a single dispatch), one-shot
timers disarm, periodic timers re-arm from the tick time by adding their
interval; the fired events then dispatch in priority order. -/
def tick (w : World) (elapsed : Nat) : World :=
  let now := w.now + elapsed
  dispatchAll
    { w with
      now := now,
      events := w.events.map fun e =>
        if timerDue now e then
          { e with
            signaled := true,
            timer := match e.timer with
              | .periodic _ i => .periodic (now + i) i
              | _ => .off }
        else e }

/-- Modelled from the spec: `Close(event)` (section 4.4) — cancels any
pending timer, removes capability-notify bindings and transitions the
event to `Closed`; fails on an unknown or already closed event. -/
def closeEvent (w : World) (eid : Nat) : World × Res Unit :=
  match w.events.find? (fun e => decide (e.id = eid)) with
  | none => (w, .err .invalidParameter)
  | some e =>
    if e.closed then (w, .err .invalidParameter)
    else
      ({ w with
         events := w.events.map fun ev =>
           if decide (ev.id = eid) then
             { ev with closed := true, signaled := false, timer := .off }
           else ev,
         tokens := w.tokens.filter fun tk => !decide (tk.eventId = eid) }, .ok ())

/-- Handles carrying an instance of type `t`, in ascending install
order, as recorded by the install log. -/
def typeLogHandles (w : World) (t : Nat) : List Nat :=
  (w.installLog.filter fun p => decide (p.1 = t)).map (·.2)

/-- Modelled from the spec: `RegisterNotify` (section 4.2) — issues a
fresh `RegistrationToken` bound to the given capability-notify event,
whose cursor has observed every installation made so far. -/
def registerNotify (w : World) (t eid : Nat) : World × Res Nat :=
  match w.events.find? (fun e => decide (e.id = eid)) with
  | none => (w, .err .invalidParameter)
  | some e =>
    if e.closed then (w, .err .invalidParameter)
    else
      ({ w with
         tokens := w.tokens ++ [⟨w.nextToken, t, eid, (typeLogHandles w t).length⟩],
         nextToken := w.nextToken + 1 }, .ok w.nextToken)

/-- Modelled from the spec: `Consume(token)` (section 4.2) — returns the
handles on which the token's capability-type-id was installed since the
token was last consumed, in ascending install order, and advances the
token past them. -/
def consumeToken (w : World) (tokId : Nat) : World × Res (List Nat) :=
  match w.tokens.find? (fun tk => decide (tk.id = tokId)) with
  | none => (w, .err .notFound)
  | some tk =>
    let allH := typeLogHandles w tk.typeId
    ({ w with tokens := w.tokens.map fun t2 =>
        if decide (t2.id = tokId) then { t2 with cursor := allH.length } else t2 },
     .ok (allH.drop tk.cursor))

/-! ### Device-path locator

`ResolveDevicePath` (spec section 4.2) walks the handles exposing both
the requested capability-type-id and a device path. Device paths are
modelled as lists of nodes (`List Nat`); the textual parsing and node
traversal are external collaborators (spec section 6). -/

/-- A handle as seen by the device-path locator: its identity, the
capability-type-ids it exposes, and its device-path capability when
present. -/
structure DPHandle where
  id : Nat
  protos : List Nat
  path : Option (List Nat)
deriving DecidableEq, Repr

/-- `startsWith q p` holds when the node list `q` is a leading segment
of the node list `p`. -/
def startsWith : List Nat → List Nat → Bool
  | [], _ => true
  | _ :: _, [] => false
  | a :: as, b :: bs => decide (a = b) && startsWith as bs

/-- Candidate matches for `ResolveDevicePath`: each handle exposing both
the requested type and a device path that is a leading segment of the
input, paired with that device path. -/
def dpCandidates (hs : List DPHandle) (t : Nat) (p : List Nat) :
    List (Nat × List Nat) :=
  hs.filterMap fun hd =>
    match hd.path with
    | none => none
    | some q => if hd.protos.contains t && startsWith q p then some (hd.id, q) else none

/-- Pick the candidate with the longest matched device path; among equal
lengths the earliest handle wins. -/
def pickLongest : List (Nat × List Nat) → Option (Nat × List Nat)
  | [] => none
  | c :: cs =>
    match pickLongest cs with
    | none => some c
    | some b => if b.2.length ≤ c.2.length then some c else some b

/-- Modelled from the spec: `ResolveDevicePath` (section 4.2) — picks the
handle whose device path is the longest exact leading segment of the
input path and returns it with the unconsumed suffix of the input;
NotFound when no handle exposing the type has such a path. -/
def locateDevicePath (hs : List DPHandle) (t : Nat) (p : List Nat) :
    Res (Nat × List Nat) :=
  match pickLongest (dpCandidates hs t p) with
  | none => .err .notFound
  | some (hid, q) => .ok (hid, p.drop q.length)

/-! ### Generic list helpers -/

theorem find?_append_none {α : Type} {p : α → Bool} {l1 l2 : List α}
    (h : l1.find? p = none) : (l1 ++ l2).find? p = l2.find? p := by
  rw [List.find?_append, h, Option.none_or]

theorem find?_filter_of_imp {α : Type} (p q : α → Bool) (l : List α)
    (himp : ∀ x, p x = true → q x = true) : (l.filter q).find? p = l.find? p := by
  induction l with
  | nil => rfl
  | cons a l ih =>
    by_cases hq : q a = true
    · rw [List.filter_cons_of_pos hq]
      by_cases hp : p a = true
      · rw [List.find?_cons_of_pos _ hp, List.find?_cons_of_pos _ hp]
      · rw [List.find?_cons_of_neg _ hp, List.find?_cons_of_neg _ hp, ih]
    · have hp : ¬p a = true := fun hpa => hq (himp a hpa)
      rw [List.filter_cons_of_neg hq, List.find?_cons_of_neg _ hp, ih]

theorem find?_map_invariant {α : Type} (f : α → α) (p : α → Bool) (l : List α)
    (hp : ∀ x, p (f x) = p x) : (l.map f).find? p = (l.find? p).map f := by
  rw [List.find?_map]
  have hfun : (p ∘ f) = p := funext hp
  rw [hfun]

/-! ### Claim theorems -/

/-- Concrete scenario state used by the witnesses: the empty world. -/
def emptyWorld : World := ⟨[], [], 0, [], [], [], 0, 0, []⟩

/-- C10: uninstalling one capability instance leaves every other instance
on the same and on every other handle installed and unchanged (lookups of
any remaining pair return their original interface), while lookups of the
removed (handle, type) pair fail. -/
theorem uninstall_frame (w : World) (h t i : Nat) (w' : World)
    (hok : uninstall w h t i = (w', .ok ())) :
    findInstance w' h t = none ∧
    ∀ h' t', ¬(h' = h ∧ t' = t) → findInstance w' h' t' = findInstance w h' t' := by
  unfold uninstall at hok
  cases hfi : findInstance w h t with
  | none => rw [hfi] at hok; simp at hok
  | some ci =>
    rw [hfi] at hok
    dsimp only at hok
    by_cases hif : ci.iface ≠ i
    · rw [if_pos hif] at hok; simp at hok
    · rw [if_neg hif] at hok
      by_cases hany : (w.usages.any fun u =>
          decide ((u.handle = h ∧ u.typeId = t) ∧
                  (u.mode = .byDriver ∨ u.mode = .exclusive))) = true
      · rw [if_pos hany] at hok; simp at hok
      · rw [if_neg hany] at hok
        have hw : w' = { w with
          instances := w.instances.filter fun c => !instKey h t c,
          usages := w.usages.filter fun u =>
            !decide (u.handle = h ∧ u.typeId = t) } := (congrArg Prod.fst hok).symm
        subst hw
        constructor
        · apply List.find?_eq_none.mpr
          intro x hx
          have := (List.mem_filter.mp hx).2
          simp only [Bool.not_eq_true'] at this
          simp [this]
        · intro h' t' hne
          show (List.filter _ w.instances).find? (instKey h' t') = _
          apply find?_filter_of_imp
          intro x hx
          have hx' : x.handle = h' ∧ x.typeId = t' := by
            simpa [instKey] using hx
          simp only [Bool.not_eq_true', instKey]
          simp only [decide_eq_false_iff_not]
          rintro ⟨rfl, rfl⟩
          exact hne ⟨hx'.1.symm, hx'.2.symm⟩

/-- C10 witness: the scenario of `TestProtocolInstallUninstallInterface`
(two handles, three protocols) at concrete values. -/
theorem uninstall_frame_witness :
    findInstance (uninstall { emptyWorld with
      instances := [⟨1, 2, 5⟩, ⟨1, 3, 6⟩, ⟨4, 2, 7⟩] } 1 2 5).1 1 2 = none ∧
    findInstance (uninstall { emptyWorld with
      instances := [⟨1, 2, 5⟩, ⟨1, 3, 6⟩, ⟨4, 2, 7⟩] } 1 2 5).1 1 3 =
      findInstance { emptyWorld with
        instances := [⟨1, 2, 5⟩, ⟨1, 3, 6⟩, ⟨4, 2, 7⟩] } 1 3 := by
  have := uninstall_frame { emptyWorld with
      instances := [⟨1, 2, 5⟩, ⟨1, 3, 6⟩, ⟨4, 2, 7⟩] } 1 2 5
    (uninstall { emptyWorld with
      instances := [⟨1, 2, 5⟩, ⟨1, 3, 6⟩, ⟨4, 2, 7⟩] } 1 2 5).1 (by decide)
  exact ⟨this.1, this.2 1 3 (by decide)⟩

/-- The in-place interface update applied by `reinstall` preserves every
instance key. -/
theorem instKey_reinstallUpd (h t newI : Nat) (h' t' : Nat)
    (x : CapabilityInstance) :
    instKey h' t' (if instKey h t x then { x with iface := newI } else x) =
      instKey h' t' x := by
  simp only [instKey]
  by_cases hx : x.handle = h ∧ x.typeId = t <;> simp [hx]

/-- C8: `Reinstall` replaces the interface pointer of an existing
instance in place — the handle survives, the usage records survive
untouched, every other instance is unchanged, a subsequent lookup of the
pair returns the new interface, and a `FindByType` query that previously
found this instance now returns the new interface; with a stale old
interface it fails with NotFound. -/
theorem reinstall_in_place (w : World) (h t oldI newI : Nat)
    (ci : CapabilityInstance) (hfind : findInstance w h t = some ci) :
    (ci.iface = oldI →
      (reinstall w h t oldI newI).2 = .ok () ∧
      findInstance (reinstall w h t oldI newI).1 h t = some ⟨h, t, newI⟩ ∧
      (reinstall w h t oldI newI).1.usages = w.usages ∧
      (∀ h' t', ¬(h' = h ∧ t' = t) →
        findInstance (reinstall w h t oldI newI).1 h' t' = findInstance w h' t') ∧
      ((w.instances.find? fun c => decide (c.typeId = t)) = some ci →
        findByType (reinstall w h t oldI newI).1 t = some newI)) ∧
    (ci.iface ≠ oldI → reinstall w h t oldI newI = (w, .err .notFound)) := by
  have hkey : instKey h t ci = true := List.find?_some hfind
  have hkey' : ci.handle = h ∧ ci.typeId = t := by simpa [instKey] using hkey
  constructor
  · intro hold
    have hre : reinstall w h t oldI newI =
        ({ w with instances := w.instances.map fun c =>
            if instKey h t c then { c with iface := newI } else c }, .ok ()) := by
      unfold reinstall
      rw [hfind]
      dsimp only
      rw [if_pos hold]
    have hfind' : w.instances.find? (instKey h t) = some ci := hfind
    refine ⟨by rw [hre], ?_, by rw [hre], ?_, ?_⟩
    · rw [hre]
      simp only [findInstance]
      rw [find?_map_invariant _ _ _ (instKey_reinstallUpd h t newI h t), hfind']
      simp [hkey, hkey'.1, hkey'.2]
    · intro h' t' hne
      rw [hre]
      simp only [findInstance]
      rw [find?_map_invariant _ _ _ (instKey_reinstallUpd h t newI h' t')]
      cases hfi : w.instances.find? (instKey h' t') with
      | none => rfl
      | some x =>
        have hxk : x.handle = h' ∧ x.typeId = t' := by
          simpa [instKey] using List.find?_some hfi
        have hxno : instKey h t x = false := by
          simp only [instKey, decide_eq_false_iff_not]
          rintro ⟨rfl, rfl⟩
          exact hne ⟨hxk.1.symm, hxk.2.symm⟩
        simp [hxno]
    · intro hfb
      rw [hre]
      simp only [findByType]
      have hinv : ∀ x : CapabilityInstance,
          (fun c : CapabilityInstance => decide (c.typeId = t))
            (if instKey h t x then { x with iface := newI } else x) =
          decide (x.typeId = t) := by
        intro x
        simp only [instKey]
        by_cases hx : x.handle = h ∧ x.typeId = t <;> simp [hx]
      rw [find?_map_invariant _ _ _ hinv, hfb]
      simp [if_pos hkey]
  · intro hne
    unfold reinstall
    rw [hfind]
    dsimp only
    rw [if_neg hne]

/-- C8 witness: reinstalling interface 5 with 7 on handle 1 (scenario of
`ReinstallProtocolInterface` in the tests) at concrete values. -/
theorem reinstall_in_place_witness :
    findInstance (reinstall { emptyWorld with
      instances := [⟨1, 2, 5⟩],
      usages := [⟨1, 2, 10, some 20, .byDriver, 1⟩] } 1 2 5 7).1 1 2 =
      some ⟨1, 2, 7⟩ ∧
    (reinstall { emptyWorld with
      instances := [⟨1, 2, 5⟩],
      usages := [⟨1, 2, 10, some 20, .byDriver, 1⟩] } 1 2 5 7).1.usages =
      [⟨1, 2, 10, some 20, .byDriver, 1⟩] := by
  have := (reinstall_in_place { emptyWorld with
      instances := [⟨1, 2, 5⟩],
      usages := [⟨1, 2, 10, some 20, .byDriver, 1⟩] } 1 2 5 7 ⟨1, 2, 5⟩
      (by decide)).1 (by decide)
  exact ⟨this.2.1, this.2.2.1⟩

/-- C1: open/close arbitration in `by-driver` mode, starting from an
instance with no usage records. A first open by consumer `c` on
controller `k` succeeds with the installed interface; an identical
second open returns the interface with the advisory AlreadyStarted
outcome and changes nothing; an open by a different consumer `c2` fails
with AccessDenied and creates no usage record; after the matching close
removes the record, the different consumer's open succeeds with the
installed interface. -/
theorem open_by_driver_arbitration (w : World) (h t c c2 : Nat) (k : Option Nat)
    (ci : CapabilityInstance)
    (hfind : findInstance w h t = some ci)
    (hclean : ∀ u ∈ w.usages, ¬(u.handle = h ∧ u.typeId = t))
    (hne : c2 ≠ c) :
    openProtocol w h t c k .byDriver =
      ({ w with usages := w.usages ++ [⟨h, t, c, k, .byDriver, 1⟩] },
       .opened ci.iface) ∧
    (openProtocol (openProtocol w h t c k .byDriver).1 h t c k .byDriver =
      ((openProtocol w h t c k .byDriver).1, .alreadyStarted ci.iface)) ∧
    (openProtocol (openProtocol w h t c k .byDriver).1 h t c2 k .byDriver =
      ((openProtocol w h t c k .byDriver).1, .failed .accessDenied)) ∧
    (closeProtocol (openProtocol w h t c k .byDriver).1 h t c k = (w, .ok ())) ∧
    ((openProtocol w h t c2 k .byDriver).2 = .opened ci.iface) := by
  have hfind' : w.instances.find? (instKey h t) = some ci := hfind
  have husageF : ∀ (X : UsageRecord → Bool),
      (w.usages.any fun u => usageOn h t u && X u) = false := by
    intro X
    apply List.any_eq_false.mpr
    intro u hu
    have := hclean u hu
    simp [usageOn, this]
  have hopen1 : openProtocol w h t c k .byDriver =
      ({ w with usages := w.usages ++ [⟨h, t, c, k, .byDriver, 1⟩] },
       .opened ci.iface) := by
    unfold openProtocol
    rw [hfind]
    dsimp only
    rw [if_neg (by simp [husageF]), if_neg (by simp [husageF])]
  have hw1 : (openProtocol w h t c k .byDriver).1 =
      { w with usages := w.usages ++ [⟨h, t, c, k, .byDriver, 1⟩] } := by
    rw [hopen1]
  refine ⟨hopen1, ?_, ?_, ?_, ?_⟩
  · rw [hw1]
    unfold openProtocol
    rw [show findInstance { w with
        usages := w.usages ++ [⟨h, t, c, k, .byDriver, 1⟩] } h t = some ci
      from hfind']
    dsimp only
    rw [if_pos]
    apply List.any_eq_true.mpr
    refine ⟨⟨h, t, c, k, .byDriver, 1⟩, by simp, ?_⟩
    simp [usageOn]
  · rw [hw1]
    unfold openProtocol
    rw [show findInstance { w with
        usages := w.usages ++ [⟨h, t, c, k, .byDriver, 1⟩] } h t = some ci
      from hfind']
    dsimp only
    rw [if_neg, if_pos]
    · apply List.any_eq_true.mpr
      refine ⟨⟨h, t, c, k, .byDriver, 1⟩, by simp, ?_⟩
      simp [usageOn, Ne.symm hne]
    · simp only [List.any_append, Bool.or_eq_true, not_or]
      constructor
      · simp [husageF]
      · simp [usageOn, Ne.symm hne]
  · rw [hw1]
    unfold closeProtocol
    rw [show (w.usages ++ [(⟨h, t, c, k, .byDriver, 1⟩ : UsageRecord)]).find?
        (closeKey h t c k) = some ⟨h, t, c, k, .byDriver, 1⟩ from ?_]
    · dsimp only
      rw [if_neg (by simp)]
      have : (w.usages ++ [(⟨h, t, c, k, .byDriver, 1⟩ : UsageRecord)]).filter
          (fun u2 => !closeKey h t c k u2) = w.usages := by
        rw [List.filter_append]
        have h1 : w.usages.filter (fun u2 => !closeKey h t c k u2) = w.usages := by
          apply List.filter_eq_self.mpr
          intro u hu
          have := hclean u hu
          simp only [closeKey, Bool.not_eq_true', decide_eq_false_iff_not]
          tauto
        have h2 : [(⟨h, t, c, k, .byDriver, 1⟩ : UsageRecord)].filter
            (fun u2 => !closeKey h t c k u2) = [] := by
          simp [closeKey]
        rw [h1, h2, List.append_nil]
      rw [this]
    · rw [find?_append_none]
      · simp [closeKey]
      · apply List.find?_eq_none.mpr
        intro u hu
        have := hclean u hu
        simp only [closeKey, decide_eq_true_eq]
        tauto
  · unfold openProtocol
    rw [hfind]
    dsimp only
    rw [if_neg (by simp [husageF]), if_neg (by simp [husageF])]

/-- C1 witness: the by-driver scenario of `TestOpenCloseProtocolInterface`
at concrete values (instance (1,2,5), consumers 10 and 11, controller
20). -/
theorem open_by_driver_arbitration_witness :
    (openProtocol (openProtocol { emptyWorld with instances := [⟨1, 2, 5⟩] }
        1 2 10 (some 20) .byDriver).1 1 2 10 (some 20) .byDriver).2 =
      .alreadyStarted 5 ∧
    (openProtocol (openProtocol { emptyWorld with instances := [⟨1, 2, 5⟩] }
        1 2 10 (some 20) .byDriver).1 1 2 11 (some 20) .byDriver).2 =
      .failed .accessDenied := by
  have := open_by_driver_arbitration { emptyWorld with instances := [⟨1, 2, 5⟩] }
    1 2 10 11 (some 20) ⟨1, 2, 5⟩ (by decide) (by simp [emptyWorld]) (by decide)
  exact ⟨by rw [this.2.1], by rw [this.2.2.1]⟩

/-- `publishInstall` touches only the install log, events, and trace:
the instance and usage tables are untouched. -/
theorem publishInstall_instances (w : World) (t h : Nat) :
    (publishInstall w t h).instances = w.instances := rfl

/-- `publishInstall` leaves the usage table untouched. -/
theorem publishInstall_usages (w : World) (t h : Nat) :
    (publishInstall w t h).usages = w.usages := rfl

/-- Shape of a successful single install on an existing handle: the new
instance is appended, usages are untouched, and the type was free on the
handle beforehand. -/
theorem installOne_some_ok {w w' : World} {h t i h' : Nat}
    (hok : installOne w (some h) t i = (w', .ok h')) :
    w'.instances = w.instances ++ [⟨h, t, i⟩] ∧ w'.usages = w.usages ∧
    findInstance w h t = none := by
  unfold installOne at hok
  dsimp only at hok
  by_cases hf : (findInstance w h t).isSome
  · rw [if_pos hf] at hok
    simp at hok
  · rw [if_neg hf] at hok
    have hw : w' = publishInstall
        { w with instances := w.instances ++ [⟨h, t, i⟩] } t h :=
      (congrArg Prod.fst hok).symm
    subst hw
    refine ⟨by rw [publishInstall_instances], by rw [publishInstall_usages], ?_⟩
    exact Option.not_isSome_iff_eq_none.mp hf

/-- Rollback correctness of the sequential batch: a failed batch leaves
the instance and usage tables exactly as they were. -/
theorem installBatchGo_err {h : Nat} :
    ∀ {pairs : List (Nat × Nat)} {w w' : World} {e : Err},
    installBatchGo w h pairs = (w', .err e) →
    w'.instances = w.instances ∧ w'.usages = w.usages := by
  intro pairs
  induction pairs with
  | nil => intro w w' e hok; simp [installBatchGo] at hok
  | cons pr rest ih =>
    intro w w' e hok
    obtain ⟨t, i⟩ := pr
    unfold installBatchGo at hok
    rcases hro : installOne w (some h) t i with ⟨w1, r1⟩
    rw [hro] at hok
    cases r1 with
    | err e1 =>
      dsimp only at hok
      have hw : w' = w := (congrArg Prod.fst hok).symm
      subst hw
      exact ⟨rfl, rfl⟩
    | ok hh =>
      dsimp only at hok
      rcases hrg : installBatchGo w1 h rest with ⟨w2, r2⟩
      rw [hrg] at hok
      cases r2 with
      | ok u => simp at hok
      | err e2 =>
        dsimp only at hok
        have hw : w' = removeInstanceRaw w2 h t i := (congrArg Prod.fst hok).symm
        subst hw
        obtain ⟨h1, h2, h3⟩ := installOne_some_ok hro
        obtain ⟨ih1, ih2⟩ := ih hrg
        constructor
        · show w2.instances.filter _ = w.instances
          rw [ih1, h1, List.filter_append]
          have hkeep : w.instances.filter (fun c =>
              !decide (c.handle = h ∧ c.typeId = t ∧ c.iface = i)) = w.instances := by
            apply List.filter_eq_self.mpr
            intro c hc
            have hc' := List.find?_eq_none.mp h3 c hc
            simp only [instKey, decide_eq_true_eq] at hc'
            simp only [Bool.not_eq_true', decide_eq_false_iff_not]
            tauto
          have hdrop : [(⟨h, t, i⟩ : CapabilityInstance)].filter (fun c =>
              !decide (c.handle = h ∧ c.typeId = t ∧ c.iface = i)) = [] := by
            simp
          rw [hkeep, hdrop, List.append_nil]
        · show w2.usages = w.usages
          rw [ih2, h2]

/-- Shape of a successful sequential batch: all sub-installs are
appended in order and usages are untouched. -/
theorem installBatchGo_ok_shape {h : Nat} :
    ∀ {pairs : List (Nat × Nat)} {w w' : World} {u : Unit},
    installBatchGo w h pairs = (w', .ok u) →
    w'.instances = w.instances ++
      (pairs.map fun pr => (⟨h, pr.1, pr.2⟩ : CapabilityInstance)) ∧
    w'.usages = w.usages := by
  intro pairs
  induction pairs with
  | nil =>
    intro w w' u hok
    simp only [installBatchGo] at hok
    have hw : w' = w := (congrArg Prod.fst hok).symm
    subst hw
    simp
  | cons pr rest ih =>
    intro w w' u hok
    obtain ⟨t, i⟩ := pr
    unfold installBatchGo at hok
    rcases hro : installOne w (some h) t i with ⟨w1, r1⟩
    rw [hro] at hok
    cases r1 with
    | err e1 => simp at hok
    | ok hh =>
      dsimp only at hok
      rcases hrg : installBatchGo w1 h rest with ⟨w2, r2⟩
      rw [hrg] at hok
      cases r2 with
      | err e2 => simp at hok
      | ok u2 =>
        dsimp only at hok
        have hw : w' = w2 := (congrArg Prod.fst hok).symm
        subst hw
        obtain ⟨h1, h2, -⟩ := installOne_some_ok hro
        obtain ⟨ih1, ih2⟩ := ih hrg
        refine ⟨?_, by rw [ih2, h2]⟩
        rw [ih1, h1, List.append_assoc]
        simp

/-- After a successful sequential batch, each pair of the batch is found
installed on the target handle. -/
theorem installBatchGo_ok_find {h : Nat} :
    ∀ {pairs : List (Nat × Nat)} {w w' : World} {u : Unit},
    installBatchGo w h pairs = (w', .ok u) →
    ∀ pr ∈ pairs, findInstance w' h pr.1 = some ⟨h, pr.1, pr.2⟩ := by
  intro pairs
  induction pairs with
  | nil => intro w w' u hok pr hpr; simp at hpr
  | cons pr0 rest ih =>
    intro w w' u hok pr hpr
    obtain ⟨t, i⟩ := pr0
    unfold installBatchGo at hok
    rcases hro : installOne w (some h) t i with ⟨w1, r1⟩
    rw [hro] at hok
    cases r1 with
    | err e1 => simp at hok
    | ok hh =>
      dsimp only at hok
      rcases hrg : installBatchGo w1 h rest with ⟨w2, r2⟩
      rw [hrg] at hok
      cases r2 with
      | err e2 => simp at hok
      | ok u2 =>
        dsimp only at hok
        have hw : w' = w2 := (congrArg Prod.fst hok).symm
        subst hw
        obtain ⟨h1, h2, h3⟩ := installOne_some_ok hro
        rcases List.mem_cons.mp hpr with hpr0 | hprrest
        · rw [hpr0]
          obtain ⟨sh1, -⟩ := installBatchGo_ok_shape hrg
          unfold findInstance
          rw [sh1, h1, List.append_assoc, find?_append_none]
          · rw [List.singleton_append, List.find?_cons_of_pos]
            simp [instKey]
          · exact h3
        · exact ih hrg pr hprrest

/-- C2: `InstallMultiple` is all-or-nothing. If any sub-install of the
batch fails, no instance of the batch is visible afterwards — the
instance and usage tables are exactly those before the call; if the
batch succeeds, every pair of the batch is installed on the returned
(possibly freshly created) handle. -/
theorem install_multiple_atomic (w : World) (hOpt : Option Nat)
    (pairs : List (Nat × Nat)) :
    (∀ e w', installMultiple w hOpt pairs = (w', .err e) →
      w'.instances = w.instances ∧ w'.usages = w.usages) ∧
    (∀ hRet w', installMultiple w hOpt pairs = (w', .ok hRet) →
      ∀ pr ∈ pairs, findInstance w' hRet pr.1 = some ⟨hRet, pr.1, pr.2⟩) := by
  constructor
  · intro e w' hok
    unfold installMultiple at hok
    cases hOpt with
    | some h0 =>
      dsimp only at hok
      rcases hrg : installBatchGo w h0 pairs with ⟨w2, r2⟩
      rw [hrg] at hok
      cases r2 with
      | ok u => simp at hok
      | err e2 =>
        dsimp only at hok
        have hw : w' = w2 := (congrArg Prod.fst hok).symm
        subst hw
        exact installBatchGo_err hrg
    | none =>
      dsimp only at hok
      rcases hrg : installBatchGo { w with nextHandle := w.nextHandle + 1 }
          w.nextHandle pairs with ⟨w2, r2⟩
      rw [hrg] at hok
      cases r2 with
      | ok u => simp at hok
      | err e2 =>
        dsimp only at hok
        have hw : w' = { w2 with nextHandle := w.nextHandle } :=
          (congrArg Prod.fst hok).symm
        subst hw
        obtain ⟨g1, g2⟩ := installBatchGo_err hrg
        exact ⟨g1, g2⟩
  · intro hRet w' hok
    unfold installMultiple at hok
    cases hOpt with
    | some h0 =>
      dsimp only at hok
      rcases hrg : installBatchGo w h0 pairs with ⟨w2, r2⟩
      rw [hrg] at hok
      cases r2 with
      | err e2 => simp at hok
      | ok u =>
        dsimp only at hok
        have hw : w' = w2 := (congrArg Prod.fst hok).symm
        have hh : h0 = hRet := by
          have := congrArg Prod.snd hok
          simpa using this
        subst hw hh
        exact installBatchGo_ok_find hrg
    | none =>
      dsimp only at hok
      rcases hrg : installBatchGo { w with nextHandle := w.nextHandle + 1 }
          w.nextHandle pairs with ⟨w2, r2⟩
      rw [hrg] at hok
      cases r2 with
      | err e2 => simp at hok
      | ok u =>
        dsimp only at hok
        have hw : w' = w2 := (congrArg Prod.fst hok).symm
        have hh : w.nextHandle = hRet := by
          have := congrArg Prod.snd hok
          simpa using this
        subst hw hh
        exact installBatchGo_ok_find hrg

/-- C2 witness: a batch with a duplicate type-id fails and leaves the
registry empty; the two-protocol batch of the tests succeeds with both
pairs visible on the fresh handle. -/
theorem install_multiple_atomic_witness :
    (installMultiple emptyWorld none [(7, 1), (7, 2)]).1.instances = [] ∧
    findInstance (installMultiple emptyWorld none [(7, 1), (8, 2)]).1 0 7 =
      some ⟨0, 7, 1⟩ := by
  constructor
  · exact ((install_multiple_atomic emptyWorld none [(7, 1), (7, 2)]).1
      .alreadyExists (installMultiple emptyWorld none [(7, 1), (7, 2)]).1
      (by decide)).1
  · exact (install_multiple_atomic emptyWorld none [(7, 1), (8, 2)]).2
      0 (installMultiple emptyWorld none [(7, 1), (8, 2)]).1 (by decide)
      (7, 1) (by decide)

/-- `startsWith q p` holds exactly when `p` decomposes as `q` followed
by a remainder. -/
theorem startsWith_iff (q p : List Nat) :
    startsWith q p = true ↔ ∃ r, p = q ++ r := by
  induction q generalizing p with
  | nil => simp [startsWith]
  | cons a as ih =>
    cases p with
    | nil =>
      simp only [startsWith, List.cons_append]
      constructor
      · intro hF; cases hF
      · rintro ⟨r, hr⟩; cases hr
    | cons b bs =>
      simp only [startsWith, Bool.and_eq_true, decide_eq_true_eq, ih,
        List.cons_append, List.cons.injEq]
      constructor
      · rintro ⟨rfl, r, rfl⟩; exact ⟨r, rfl, rfl⟩
      · rintro ⟨r, rfl, rfl⟩; exact ⟨rfl, r, rfl⟩

/-- A successful `pickLongest` returns one of the candidates. -/
theorem pickLongest_mem : ∀ {l : List (Nat × List Nat)} {c},
    pickLongest l = some c → c ∈ l := by
  intro l
  induction l with
  | nil => intro c hc; simp [pickLongest] at hc
  | cons a l ih =>
    intro c hc
    unfold pickLongest at hc
    cases hp : pickLongest l with
    | none => rw [hp] at hc; simp at hc; simp [hc]
    | some b =>
      rw [hp] at hc
      dsimp only at hc
      by_cases hlen : b.2.length ≤ a.2.length
      · rw [if_pos hlen] at hc
        simp at hc
        simp [hc]
      · rw [if_neg hlen] at hc
        simp at hc
        subst hc
        exact List.mem_cons_of_mem a (ih hp)

/-- `pickLongest` fails only on the empty candidate list. -/
theorem pickLongest_eq_none : ∀ {l : List (Nat × List Nat)},
    pickLongest l = none ↔ l = [] := by
  intro l
  cases l with
  | nil => simp [pickLongest]
  | cons a l =>
    simp only [pickLongest]
    cases hp : pickLongest l with
    | none => simp
    | some b =>
      dsimp only
      by_cases hlen : b.2.length ≤ a.2.length
      · rw [if_pos hlen]; simp
      · rw [if_neg hlen]; simp

/-- `pickLongest` returns a candidate of maximal matched length. -/
theorem pickLongest_max : ∀ {l : List (Nat × List Nat)} {c},
    pickLongest l = some c → ∀ d ∈ l, d.2.length ≤ c.2.length := by
  intro l
  induction l with
  | nil => intro c hc d hd; simp at hd
  | cons a l ih =>
    intro c hc d hd
    unfold pickLongest at hc
    cases hp : pickLongest l with
    | none =>
      rw [hp] at hc
      simp at hc
      subst hc
      rcases List.mem_cons.mp hd with rfl | hdl
      · exact Nat.le_refl _
      · rw [pickLongest_eq_none.mp hp] at hdl
        simp at hdl
    | some b =>
      rw [hp] at hc
      dsimp only at hc
      by_cases hlen : b.2.length ≤ a.2.length
      · rw [if_pos hlen] at hc
        simp at hc
        subst hc
        rcases List.mem_cons.mp hd with rfl | hdl
        · exact Nat.le_refl _
        · exact Nat.le_trans (ih hp d hdl) hlen
      · rw [if_neg hlen] at hc
        simp at hc
        subst hc
        rcases List.mem_cons.mp hd with rfl | hdl
        · exact Nat.le_of_lt (Nat.lt_of_not_le hlen)
        · exact ih hp d hdl

/-- Membership in the candidate list of the device-path locator. -/
theorem mem_dpCandidates {hs : List DPHandle} {t : Nat} {p : List Nat}
    {c : Nat × List Nat} :
    c ∈ dpCandidates hs t p ↔
      ∃ hd ∈ hs, ∃ q, hd.path = some q ∧ hd.protos.contains t = true ∧
        startsWith q p = true ∧ c = (hd.id, q) := by
  unfold dpCandidates
  rw [List.mem_filterMap]
  constructor
  · rintro ⟨a, ha, hfa⟩
    cases hpath : a.path with
    | none => rw [hpath] at hfa; cases hfa
    | some q =>
      rw [hpath] at hfa
      dsimp only at hfa
      by_cases hcond : (a.protos.contains t && startsWith q p) = true
      · rw [if_pos hcond] at hfa
        obtain ⟨h1, h2⟩ := Bool.and_eq_true_iff.mp hcond
        exact ⟨a, ha, q, hpath, h1, h2, (Option.some.injEq _ _ ▸ hfa).symm⟩
      · rw [if_neg hcond] at hfa; cases hfa
  · rintro ⟨hd, hhd, q, hpath, hcont, hsw, rfl⟩
    refine ⟨hd, hhd, ?_⟩
    rw [hpath]
    dsimp only
    rw [if_pos (by rw [hcont, hsw]; rfl)]

/-- C3: `ResolveDevicePath` selects, among all handles exposing both the
requested capability-type-id and a device path, the handle whose device
path is the longest exact leading segment of the input path, returning
it together with the unconsumed suffix of the input (empty when the
match consumes everything); it fails with NotFound exactly when no
type-exposing handle's device path is a leading segment of the input
(in particular when no handle exposes the type at all). -/
theorem resolve_device_path (hs : List DPHandle) (t : Nat) (p : List Nat) :
    (locateDevicePath hs t p = .err .notFound ↔
      ∀ hd ∈ hs, ∀ q, hd.path = some q → hd.protos.contains t = true →
        startsWith q p = false) ∧
    (∀ hid rem, locateDevicePath hs t p = .ok (hid, rem) →
      ∃ hd ∈ hs, ∃ q, hd.path = some q ∧ hd.protos.contains t = true ∧
        hd.id = hid ∧ (∃ r, p = q ++ r ∧ rem = r) ∧ rem = p.drop q.length ∧
        ∀ hd2 ∈ hs, ∀ q2, hd2.path = some q2 → hd2.protos.contains t = true →
          startsWith q2 p = true → q2.length ≤ q.length) := by
  constructor
  · unfold locateDevicePath
    cases hp : pickLongest (dpCandidates hs t p) with
    | none =>
      dsimp only
      have hnil : dpCandidates hs t p = [] := pickLongest_eq_none.mp hp
      constructor
      · intro _ hd hhd q hpath hcont
        by_contra hsw
        rw [Bool.not_eq_false] at hsw
        have : (hd.id, q) ∈ dpCandidates hs t p :=
          mem_dpCandidates.mpr ⟨hd, hhd, q, hpath, hcont, hsw, rfl⟩
        rw [hnil] at this
        simp at this
      · intro _; rfl
    | some c =>
      obtain ⟨hid, q⟩ := c
      dsimp only
      constructor
      · intro hF; cases hF
      · intro hall
        exfalso
        obtain ⟨hd, hhd, q', hpath, hcont, hsw, hcq⟩ :=
          mem_dpCandidates.mp (pickLongest_mem hp)
        rw [hall hd hhd q' hpath hcont] at hsw
        cases hsw
  · intro hid rem hok
    unfold locateDevicePath at hok
    cases hp : pickLongest (dpCandidates hs t p) with
    | none => rw [hp] at hok; cases hok
    | some c =>
      obtain ⟨hid0, q⟩ := c
      rw [hp] at hok
      dsimp only at hok
      have hids : hid0 = hid ∧ rem = p.drop q.length := by
        have h1 := congrArg (fun r => match r with
          | Res.ok (v : Nat × List Nat) => v
          | Res.err _ => (hid, rem)) hok
        dsimp at h1
        exact ⟨congrArg Prod.fst h1, (congrArg Prod.snd h1).symm⟩
      obtain ⟨rfl, hrem⟩ := hids
      obtain ⟨hd, hhd, q', hpath, hcont, hsw, hcq⟩ :=
        mem_dpCandidates.mp (pickLongest_mem hp)
      have hq : hd.id = hid0 ∧ q' = q := by
        have := hcq
        exact ⟨(congrArg Prod.fst this).symm, (congrArg Prod.snd this).symm⟩
      obtain ⟨hdid, rfl⟩ := hq
      obtain ⟨r, hr⟩ := (startsWith_iff q' p).mp hsw
      refine ⟨hd, hhd, q', hpath, hcont, hdid, ⟨r, hr, ?_⟩, hrem, ?_⟩
      · rw [hrem, hr, List.drop_left]
      · intro hd2 hhd2 q2 hpath2 hcont2 hsw2
        have hmem : (hd2.id, q2) ∈ dpCandidates hs t p :=
          mem_dpCandidates.mpr ⟨hd2, hhd2, q2, hpath2, hcont2, hsw2, rfl⟩
        exact pickLongest_max hp (hd2.id, q2) hmem

/-- C3 witness: the `TestDevicePathSupport` scenario — paths `A`, `A/B`,
`A/B/C` installed on handles 1, 2, 3 with the test capability (9); a
path that extends no installed path reports NotFound, and `A/B/C`
resolves (per the theorem) to handle 3 with empty remainder. -/
theorem resolve_device_path_witness :
    locateDevicePath [(⟨1, [9], some [100]⟩ : DPHandle), ⟨2, [9], some [100, 200]⟩,
        ⟨3, [9], some [100, 200, 300]⟩, ⟨4, [9], none⟩] 9 [500] = .err .notFound :=
  (resolve_device_path [⟨1, [9], some [100]⟩, ⟨2, [9], some [100, 200]⟩,
    ⟨3, [9], some [100, 200, 300]⟩, ⟨4, [9], none⟩] 9 [500]).1.mpr (by decide)

/-- A tick is silent on a world whose single event is unsignaled and
disarmed: no callback runs and the event is untouched. -/
theorem tick_silent (w : World) (e : Event) (d : Nat)
    (hev : w.events = [e]) (hsg : e.signaled = false) (htm : e.timer = .off) :
    (tick w d).events = [e] ∧ (tick w d).trace = w.trace ∧
    (tick w d).now = w.now + d := by
  unfold tick dispatchAll
  rw [hev]
  simp [timerDue, htm, readyForDispatch, hsg, sortDesc]

/-- No sequence of ticks ever runs a callback in a world whose single
event is unsignaled and disarmed. -/
theorem ticks_silent (ds : List Nat) : ∀ (w : World) (e : Event),
    w.events = [e] → e.signaled = false → e.timer = .off →
    (ds.foldl tick w).trace = w.trace := by
  induction ds with
  | nil => intro w e _ _ _; rfl
  | cons d ds ih =>
    intro w e hev hsg htm
    have h := tick_silent w e d hev hsg htm
    show (ds.foldl tick (tick w d)).trace = w.trace
    rw [ih (tick w d) e h.1 hsg htm, h.2.1]

/-- C9: after `Close(event)` the event is in the Closed state with any
pending timer cancelled; a subsequent Signal reports an error (here
InvalidParameter, the InvalidState choice of the spec) without invoking
the callback or changing anything, and no subsequent sequence of Ticks
ever fires the previously armed timer. -/
theorem close_event_inert (w : World) (e : Event)
    (hev : w.events = [e]) (hcl : e.closed = false) :
    (closeEvent w e.id).2 = .ok () ∧
    (closeEvent w e.id).1.events =
      [{ e with closed := true, signaled := false, timer := .off }] ∧
    (closeEvent w e.id).1.trace = w.trace ∧
    signalEvent (closeEvent w e.id).1 e.id =
      ((closeEvent w e.id).1, .err .invalidParameter) ∧
    ∀ ds : List Nat, (ds.foldl tick (closeEvent w e.id).1).trace = w.trace := by
  have hclose : closeEvent w e.id =
      ({ w with
         events := [{ e with closed := true, signaled := false, timer := .off }],
         tokens := w.tokens.filter fun tk => !decide (tk.eventId = e.id) },
       .ok ()) := by
    unfold closeEvent
    rw [hev, List.find?_cons_of_pos _ (by simp)]
    dsimp only
    rw [if_neg (by simp [hcl])]
    simp
  refine ⟨by rw [hclose], by rw [hclose], by rw [hclose], ?_, ?_⟩
  · rw [hclose]
    unfold signalEvent
    rw [List.find?_cons_of_pos _ (by simp)]
    simp
  · intro ds
    rw [hclose]
    exact ticks_silent ds _ _ rfl rfl rfl

/-- C9 witness: closing an armed periodic timer event (the
`TestTimerEvents` close scenario) at concrete values. -/
theorem close_event_inert_witness :
    (signalEvent (closeEvent { emptyWorld with
        events := [⟨1, 8, true, true, none, false, false, .periodic 500 500⟩] } 1).1
      1).2 = .err .invalidParameter ∧
    (([1000, 1000] : List Nat).foldl tick (closeEvent { emptyWorld with
        events := [⟨1, 8, true, true, none, false, false, .periodic 500 500⟩] } 1).1).trace
      = [] := by
  have := close_event_inert { emptyWorld with
      events := [⟨1, 8, true, true, none, false, false, .periodic 500 500⟩] }
    ⟨1, 8, true, true, none, false, false, .periodic 500 500⟩ rfl rfl
  exact ⟨by rw [this.2.2.2.1], this.2.2.2.2 [1000, 1000]⟩

/-- C4: two live signal-notify events in the same group — signaling
either one dispatches the callbacks of both, in descending
priority-level order; on a priority tie, registration order decides, so
the earlier-registered event runs first. With the test's levels
(`tply = notify > tplx = callback`) the notify-level callback runs
before the callback-level one. -/
theorem group_dispatch_order (w : World) (idx idy tplx tply g : Nat)
    (tmx tmy : Bool) (tsx tsy : TimerState) (hne : idx ≠ idy)
    (hev : w.events = [⟨idx, tplx, true, tmx, some g, false, false, tsx⟩,
                       ⟨idy, tply, true, tmy, some g, false, false, tsy⟩]) :
    (signalEvent w idx).2 = .ok () ∧ (signalEvent w idy).2 = .ok () ∧
    (signalEvent w idx).1.trace =
      w.trace ++ (if tply ≤ tplx then [idx, idy] else [idy, idx]) ∧
    (signalEvent w idy).1.trace =
      w.trace ++ (if tply ≤ tplx then [idx, idy] else [idy, idx]) := by
  have hxy : ¬(idy = idx) := fun hcontra => hne hcontra.symm
  constructor
  · unfold signalEvent
    rw [hev, List.find?_cons_of_pos _ (by simp)]
    simp [dispatchAll]
  constructor
  · unfold signalEvent
    rw [hev, List.find?_cons_of_neg _ (by simp [hne]),
      List.find?_cons_of_pos _ (by simp)]
    simp [dispatchAll]
  constructor
  · unfold signalEvent
    rw [hev, List.find?_cons_of_pos _ (by simp)]
    dsimp only
    rw [if_neg (by simp)]
    unfold dispatchAll
    simp only [readyForDispatch, sortDesc, insertDesc]
    by_cases hle : tply ≤ tplx
    · simp [hxy, hle, sortDesc, insertDesc, readyForDispatch]
    · simp [hxy, hle, sortDesc, insertDesc, readyForDispatch]
  · unfold signalEvent
    rw [hev, List.find?_cons_of_neg _ (by simp [hne]),
      List.find?_cons_of_pos _ (by simp)]
    dsimp only
    rw [if_neg (by simp)]
    unfold dispatchAll
    simp only [readyForDispatch, sortDesc, insertDesc]
    by_cases hle : tply ≤ tplx
    · simp [hne, hle, sortDesc, insertDesc, readyForDispatch]
    · simp [hne, hle, sortDesc, insertDesc, readyForDispatch]

/-- C4 witness: the `TestEventing` group scenario — event 1 at the
callback level (8), event 2 at the notify level (16), same group;
signaling event 1 runs event 2's callback first. -/
theorem group_dispatch_order_witness :
    (signalEvent { emptyWorld with
      events := [⟨1, 8, true, false, some 5, false, false, .off⟩,
                 ⟨2, 16, true, false, some 5, false, false, .off⟩] } 1).1.trace =
      [2, 1] := by
  have := (group_dispatch_order { emptyWorld with
      events := [⟨1, 8, true, false, some 5, false, false, .off⟩,
                 ⟨2, 16, true, false, some 5, false, false, .off⟩] }
    1 2 8 16 5 false false .off .off (by decide) rfl).2.2.1
  simpa using this

/-- C6: `SetTimer(relative, 1000)` arms a one-shot deadline `now + 1000`;
a `Tick(100)` does not fire the callback, the following `Tick(900)`
(cumulative elapsed reaching the deadline) fires it exactly once, and —
one-shot — no further sequence of ticks ever fires it again. -/
theorem relative_timer_one_shot (w : World) (eid tpl n : Nat) (g : Option Nat)
    (hev : w.events = [⟨eid, tpl, true, true, g, false, false, .off⟩])
    (hnow : w.now = n) :
    (setTimer w eid .relative 1000).2 = .ok () ∧
    (setTimer w eid .relative 1000).1.events =
      [⟨eid, tpl, true, true, g, false, false, .oneshot (n + 1000)⟩] ∧
    (tick (setTimer w eid .relative 1000).1 100).trace = w.trace ∧
    (tick (tick (setTimer w eid .relative 1000).1 100) 900).trace =
      w.trace ++ [eid] ∧
    ∀ ds : List Nat,
      (ds.foldl tick (tick (tick (setTimer w eid .relative 1000).1 100) 900)).trace =
        w.trace ++ [eid] := by
  have h1 : setTimer w eid .relative 1000 =
      ({ w with events := [⟨eid, tpl, true, true, g, false, false,
          .oneshot (n + 1000)⟩] }, .ok ()) := by
    unfold setTimer
    rw [hev, List.find?_cons_of_pos _ (by simp)]
    dsimp only
    rw [if_neg (by simp)]
    simp [hnow]
  have h2 : tick (setTimer w eid .relative 1000).1 100 =
      { w with
        events := [⟨eid, tpl, true, true, g, false, false, .oneshot (n + 1000)⟩],
        now := n + 100 } := by
    rw [h1]
    unfold tick dispatchAll
    simp [timerDue, readyForDispatch, sortDesc, hnow,
      show ¬(n + 1000 ≤ n + 100) from by omega]
  have h3 : tick (tick (setTimer w eid .relative 1000).1 100) 900 =
      { w with
        events := [⟨eid, tpl, true, true, g, false, false, .off⟩],
        now := n + 1000,
        trace := w.trace ++ [eid] } := by
    rw [h2]
    unfold tick dispatchAll
    simp [timerDue, readyForDispatch, sortDesc, insertDesc,
      show n + 100 + 900 = n + 1000 from by omega,
      show n + 1000 ≤ n + 1000 from Nat.le_refl _]
  refine ⟨by rw [h1], by rw [h1], by rw [h2], by rw [h3], ?_⟩
  intro ds
  rw [h3]
  exact ticks_silent ds _ _ rfl rfl rfl

/-- C6 witness: the `TestTimerEvents` relative scenario at concrete
values (event 1, level 8, start time 0). -/
theorem relative_timer_one_shot_witness :
    (tick (tick (setTimer { emptyWorld with
        events := [⟨1, 8, true, true, none, false, false, .off⟩] }
      1 .relative 1000).1 100) 900).trace = [1] ∧
    (([500, 1000] : List Nat).foldl tick (tick (tick (setTimer { emptyWorld with
        events := [⟨1, 8, true, true, none, false, false, .off⟩] }
      1 .relative 1000).1 100) 900)).trace = [1] := by
  have := relative_timer_one_shot { emptyWorld with
      events := [⟨1, 8, true, true, none, false, false, .off⟩] }
    1 8 0 none rfl rfl
  exact ⟨this.2.2.2.1, this.2.2.2.2 [500, 1000]⟩

/-- C5: `SetTimer(periodic, 500)` — `Tick(100)` then `Tick(400)` fires
the callback exactly once; immediately repeating `Tick(100)` then
`Tick(400)` fires it exactly once again (the timer re-arms itself by
adding the interval at each firing); after `SetTimer(cancel)` disarms it
(the event stays open), no subsequent sequence of ticks of any size ever
fires it. -/
theorem periodic_timer_rearm_cancel (w : World) (eid tpl n : Nat) (g : Option Nat)
    (hev : w.events = [⟨eid, tpl, true, true, g, false, false, .off⟩])
    (hnow : w.now = n) :
    (setTimer w eid .periodic 500).2 = .ok () ∧
    (tick (setTimer w eid .periodic 500).1 100).trace = w.trace ∧
    (tick (tick (setTimer w eid .periodic 500).1 100) 400).trace =
      w.trace ++ [eid] ∧
    (tick (tick (tick (setTimer w eid .periodic 500).1 100) 400) 100).trace =
      w.trace ++ [eid] ∧
    (tick (tick (tick (tick (setTimer w eid .periodic 500).1 100) 400) 100) 400).trace =
      w.trace ++ [eid, eid] ∧
    (setTimer (tick (tick (tick (tick (setTimer w eid .periodic 500).1 100) 400) 100)
        400) eid .cancel 0).2 = .ok () ∧
    ∀ ds : List Nat,
      (ds.foldl tick (setTimer (tick (tick (tick (tick (setTimer w eid .periodic
        500).1 100) 400) 100) 400) eid .cancel 0).1).trace =
        w.trace ++ [eid, eid] := by
  have h1 : setTimer w eid .periodic 500 =
      ({ w with events := [⟨eid, tpl, true, true, g, false, false,
          .periodic (n + 500) 500⟩] }, .ok ()) := by
    unfold setTimer
    rw [hev, List.find?_cons_of_pos _ (by simp)]
    dsimp only
    rw [if_neg (by simp)]
    simp [hnow]
  have h2 : tick (setTimer w eid .periodic 500).1 100 =
      { w with
        events := [⟨eid, tpl, true, true, g, false, false, .periodic (n + 500) 500⟩],
        now := n + 100 } := by
    rw [h1]
    unfold tick dispatchAll
    simp [timerDue, readyForDispatch, sortDesc, hnow,
      show ¬(n + 500 ≤ n + 100) from by omega]
  have h3 : tick (tick (setTimer w eid .periodic 500).1 100) 400 =
      { w with
        events := [⟨eid, tpl, true, true, g, false, false, .periodic (n + 1000) 500⟩],
        now := n + 500,
        trace := w.trace ++ [eid] } := by
    rw [h2]
    unfold tick dispatchAll
    simp [timerDue, readyForDispatch, sortDesc, insertDesc,
      show n + 100 + 400 = n + 500 from by omega,
      show n + 500 ≤ n + 500 from Nat.le_refl _,
      show n + 500 + 500 = n + 1000 from by omega]
  have h4 : tick (tick (tick (setTimer w eid .periodic 500).1 100) 400) 100 =
      { w with
        events := [⟨eid, tpl, true, true, g, false, false, .periodic (n + 1000) 500⟩],
        now := n + 600,
        trace := w.trace ++ [eid] } := by
    rw [h3]
    unfold tick dispatchAll
    simp [timerDue, readyForDispatch, sortDesc,
      show n + 500 + 100 = n + 600 from by omega,
      show ¬(n + 1000 ≤ n + 600) from by omega]
  have h5 : tick (tick (tick (tick (setTimer w eid .periodic 500).1 100) 400) 100)
      400 =
      { w with
        events := [⟨eid, tpl, true, true, g, false, false, .periodic (n + 1500) 500⟩],
        now := n + 1000,
        trace := w.trace ++ [eid, eid] } := by
    rw [h4]
    unfold tick dispatchAll
    simp [timerDue, readyForDispatch, sortDesc, insertDesc,
      show n + 600 + 400 = n + 1000 from by omega,
      show n + 1000 ≤ n + 1000 from Nat.le_refl _,
      show n + 1000 + 500 = n + 1500 from by omega]
  have h6 : setTimer (tick (tick (tick (tick (setTimer w eid .periodic 500).1 100)
      400) 100) 400) eid .cancel 0 =
      ({ w with
         events := [⟨eid, tpl, true, true, g, false, false, .off⟩],
         now := n + 1000,
         trace := w.trace ++ [eid, eid] }, .ok ()) := by
    rw [h5]
    unfold setTimer
    rw [List.find?_cons_of_pos _ (by simp)]
    dsimp only
    rw [if_neg (by simp)]
    simp
  refine ⟨by rw [h1], by rw [h2], by rw [h3], by rw [h4], by rw [h5], by rw [h6], ?_⟩
  intro ds
  rw [h6]
  exact ticks_silent ds _ _ rfl rfl rfl

/-- C5 witness: the `TestTimerEvents` periodic scenario at concrete
values (event 1, level 8, start time 0). -/
theorem periodic_timer_rearm_cancel_witness :
    (tick (tick (tick (tick (setTimer { emptyWorld with
        events := [⟨1, 8, true, true, none, false, false, .off⟩] }
      1 .periodic 500).1 100) 400) 100) 400).trace = [1, 1] ∧
    (([1000, 1000] : List Nat).foldl tick (setTimer (tick (tick (tick (tick
      (setTimer { emptyWorld with
        events := [⟨1, 8, true, true, none, false, false, .off⟩] }
      1 .periodic 500).1 100) 400) 100) 400) 1 .cancel 0).1).trace = [1, 1] := by
  have := periodic_timer_rearm_cancel { emptyWorld with
      events := [⟨1, 8, true, true, none, false, false, .off⟩] }
    1 8 0 none rfl rfl
  exact ⟨this.2.2.2.2.1, this.2.2.2.2.2.2 [1000, 1000]⟩

/-- C7: after `RegisterNotify(t)` binds a token to a live
capability-notify event, installing an instance of `t` signals that
event — its callback has run by the time the install returns (the
dispatch trace grew by exactly that event) — and consuming the token
afterwards returns exactly the handles on which `t` was installed since
the token was issued or last consumed: here the single new handle; the
token advances, so consuming again returns nothing. -/
theorem register_notify_install_consume (w : World) (eid tpl : Nat) (tm : Bool)
    (g : Option Nat) (ts : TimerState) (t i h : Nat)
    (hev : w.events = [⟨eid, tpl, true, tm, g, false, false, ts⟩])
    (htk : w.tokens = [])
    (hni : findInstance w h t = none) :
    (registerNotify w t eid).2 = .ok w.nextToken ∧
    (installOne (registerNotify w t eid).1 (some h) t i).2 = .ok h ∧
    (installOne (registerNotify w t eid).1 (some h) t i).1.trace =
      w.trace ++ [eid] ∧
    (consumeToken (installOne (registerNotify w t eid).1 (some h) t i).1
      w.nextToken).2 = .ok [h] ∧
    (consumeToken (consumeToken (installOne (registerNotify w t eid).1 (some h) t i).1
      w.nextToken).1 w.nextToken).2 = .ok ([] : List Nat) := by
  have hreg : registerNotify w t eid =
      ({ w with
         tokens := [⟨w.nextToken, t, eid, (typeLogHandles w t).length⟩],
         nextToken := w.nextToken + 1 }, .ok w.nextToken) := by
    unfold registerNotify
    rw [hev, List.find?_cons_of_pos _ (by simp)]
    dsimp only
    rw [if_neg (by simp)]
    rw [htk]
    simp
  have hinst : installOne (registerNotify w t eid).1 (some h) t i =
      ({ w with
         instances := w.instances ++ [⟨h, t, i⟩],
         installLog := w.installLog ++ [(t, h)],
         events := [⟨eid, tpl, true, tm, g, false, false, ts⟩],
         tokens := [⟨w.nextToken, t, eid, (typeLogHandles w t).length⟩],
         nextToken := w.nextToken + 1,
         trace := w.trace ++ [eid] }, .ok h) := by
    rw [hreg]
    unfold installOne
    dsimp only
    rw [if_neg (by simp [show findInstance { w with
        tokens := [⟨w.nextToken, t, eid, (typeLogHandles w t).length⟩],
        nextToken := w.nextToken + 1 } h t = none from hni])]
    unfold publishInstall dispatchAll
    rw [hev]
    simp [readyForDispatch, sortDesc, insertDesc]
  have hcons : consumeToken (installOne (registerNotify w t eid).1 (some h) t i).1
      w.nextToken =
      ({ w with
         instances := w.instances ++ [⟨h, t, i⟩],
         installLog := w.installLog ++ [(t, h)],
         events := [⟨eid, tpl, true, tm, g, false, false, ts⟩],
         tokens := [⟨w.nextToken, t, eid, (typeLogHandles w t).length + 1⟩],
         nextToken := w.nextToken + 1,
         trace := w.trace ++ [eid] }, .ok [h]) := by
    rw [hinst]
    unfold consumeToken
    rw [List.find?_cons_of_pos _ (by simp)]
    dsimp only
    have hlog : typeLogHandles { w with
        instances := w.instances ++ [⟨h, t, i⟩],
        installLog := w.installLog ++ [(t, h)],
        events := [⟨eid, tpl, true, tm, g, false, false, ts⟩],
        tokens := [⟨w.nextToken, t, eid, (typeLogHandles w t).length⟩],
        nextToken := w.nextToken + 1,
        trace := w.trace ++ [eid] } t = typeLogHandles w t ++ [h] := by
      unfold typeLogHandles
      simp [List.filter_append]
    rw [hlog]
    simp [List.drop_left]
  have hcons2 : (consumeToken (consumeToken (installOne (registerNotify w t eid).1
      (some h) t i).1 w.nextToken).1 w.nextToken).2 = .ok ([] : List Nat) := by
    rw [hcons]
    unfold consumeToken
    rw [List.find?_cons_of_pos _ (by simp)]
    dsimp only
    have hlog : typeLogHandles { w with
        instances := w.instances ++ [⟨h, t, i⟩],
        installLog := w.installLog ++ [(t, h)],
        events := [⟨eid, tpl, true, tm, g, false, false, ts⟩],
        tokens := [⟨w.nextToken, t, eid, (typeLogHandles w t).length + 1⟩],
        nextToken := w.nextToken + 1,
        trace := w.trace ++ [eid] } t = typeLogHandles w t ++ [h] := by
      unfold typeLogHandles
      simp [List.filter_append]
    rw [hlog]
    rw [show (typeLogHandles w t).length + 1 =
        (typeLogHandles w t ++ [h]).length from by simp]
    rw [List.drop_length]
  exact ⟨by rw [hreg], by rw [hinst], by rw [hinst], by rw [hcons], hcons2⟩

/-- C7 witness: the `RegisterProtocolNotify` scenario of `TestEventing`
at concrete values — event 3 bound to protocol 9, install on handle 42
runs the callback and the consumed token yields exactly handle 42. -/
theorem register_notify_install_consume_witness :
    (installOne (registerNotify { emptyWorld with
        events := [⟨3, 8, true, false, none, false, false, .off⟩] } 9 3).1
      (some 42) 9 777).1.trace = [3] ∧
    (consumeToken (installOne (registerNotify { emptyWorld with
        events := [⟨3, 8, true, false, none, false, false, .off⟩] } 9 3).1
      (some 42) 9 777).1 0).2 = .ok [42] := by
  have := register_notify_install_consume { emptyWorld with
      events := [⟨3, 8, true, false, none, false, false, .off⟩] }
    3 8 false none .off 9 777 42 rfl rfl (by decide)
  exact ⟨this.2.2.1, this.2.2.2.1⟩

end Fw
